import Mathlib

set_option autoImplicit false

/-
Verification of the authentication and authorization core of
devops-mission-control: the auth package (UserStore, TokenStore and its
background sweeper), the CLI RBAC layer (cmd/authz.go) and the HTTP
dashboard middleware (pkg/dashboard/client.go).

Time instants and durations are modelled as Int (Go nanoseconds); the
cryptographically random token value produced by genToken is modelled as
an explicit fresh-string argument; disk persistence is modelled as a
second map inside the store state, with a successful save copying the
in-memory map to it.
-/

namespace MissionControl

/-- Roles declared in pkg/auth: RoleViewer, RoleOperator, RoleAdmin. -/
inductive Role where
  | viewer
  | operator
  | admin
deriving DecidableEq

/-- Role levels used identically by cmd/authz.go (cliRoleLevel) and
pkg/dashboard/client.go (roleLevel): viewer 10, operator 20, admin 30. -/
def roleLevel : Role → Nat
  | .viewer => 10
  | .operator => 20
  | .admin => 30

/-- User record of pkg/auth (part_004): Username, TenantID, PasswordHash,
Role, CreatedAt, Active. -/
structure User where
  username : String
  tenantID : String
  passwordHash : String
  role : Role
  createdAt : Int
  active : Bool
deriving DecidableEq

/-- Token record of pkg/auth (part_004): Token (the value), TenantID, User,
Name, CreatedAt, ExpiresAt (optional), Revoked. -/
structure Token where
  value : String
  tenantID : String
  user : String
  name : String
  createdAt : Int
  expiresAt : Option Int
  revoked : Bool
deriving DecidableEq

/-- Lookup in a Go map modelled as an association list (first binding wins). -/
def lookupKey {β : Type} (l : List (String × β)) (k : String) : Option β :=
  match l with
  | [] => none
  | p :: rest => if p.1 = k then some p.2 else lookupKey rest k

/-- Remove every binding of a key; used to model Go map insertion. -/
def eraseKey {β : Type} (l : List (String × β)) (k : String) : List (String × β) :=
  match l with
  | [] => []
  | p :: rest => if p.1 = k then eraseKey rest k else p :: eraseKey rest k

/-- Go map insertion m[k] = v: the new binding replaces any old one. -/
def insertKey {β : Type} (l : List (String × β)) (k : String) (v : β) : List (String × β) :=
  (k, v) :: eraseKey l k

/-- In-place mutation tok.Revoked = true of the record stored under a key;
records under other keys are untouched. -/
def markRevoked (l : List (String × Token)) (k : String) : List (String × Token) :=
  match l with
  | [] => []
  | p :: rest =>
    (if p.1 = k then (p.1, { p.2 with revoked := true }) else p) :: markRevoked rest k

/-- TokenStore state (part_004): the in-memory map s.tokens, the on-disk
document, and the tenant label. A successful save copies tokens to disk. -/
structure TokenStore where
  tokens : List (String × Token)
  disk : List (String × Token)
  tenant : String
deriving DecidableEq

/-- TokenStore.load (part_004): json.Decode into the existing non-nil map
keeps in-memory entries absent from the document and overwrites common keys
with the disk values, so the loaded map is the disk entries together with
the memory-only entries. -/
def TokenStore.load (s : TokenStore) : TokenStore :=
  { s with tokens := s.disk ++ s.tokens.filter (fun p => (lookupKey s.disk p.1).isNone) }

/-- Error outcomes of TokenStore operations, matching the three error values
of part_004: token not found, token revoked, token expired. -/
inductive TokenError where
  | notFound
  | revoked
  | expired
deriving DecidableEq

/-- Record checks of TokenStore.Validate after the lookup succeeded:
revoked first, then expiry, where Go time.Now().After(*tok.ExpiresAt)
is the strict comparison e < now. -/
def checkToken (tok : Token) (now : Int) : Except TokenError Token :=
  if tok.revoked then .error .revoked
  else
    match tok.expiresAt with
    | some e => if e < now then .error .expired else .ok tok
    | none => .ok tok

/-- TokenStore.Validate (part_004 lines 330-356): check the in-memory map;
on a miss, reload from disk and re-check; then apply the record checks. -/
def TokenStore.Validate (s : TokenStore) (t : String) (now : Int) :
    TokenStore × Except TokenError Token :=
  match lookupKey s.tokens t with
  | some tok => (s, checkToken tok now)
  | none =>
    match lookupKey s.load.tokens t with
    | some tok => (s.load, checkToken tok now)
    | none => (s.load, .error .notFound)

/-- TokenStore.GenerateToken (part_004 lines 298-327): fresh random value,
expiry now + ttl when ttl > 0 else absent, record inserted, single save. -/
def TokenStore.GenerateToken (s : TokenStore) (user name : String) (ttl : Int)
    (fresh : String) (now : Int) : TokenStore × Token :=
  let exp : Option Int := if 0 < ttl then some (now + ttl) else none
  let tok : Token :=
    { value := fresh, tenantID := s.tenant, user := user, name := name,
      createdAt := now, expiresAt := exp, revoked := false }
  let mem := insertKey s.tokens fresh tok
  ({ s with tokens := mem, disk := mem }, tok)

/-- TokenStore.Revoke (part_004 lines 359-374): error when absent, else mark
the stored record revoked and save. -/
def TokenStore.Revoke (s : TokenStore) (t : String) :
    TokenStore × Except TokenError Unit :=
  match lookupKey s.tokens t with
  | none => (s, .error .notFound)
  | some _ =>
    let mem := markRevoked s.tokens t
    ({ s with tokens := mem, disk := mem }, .ok ())

/-- TokenStore.Rotate (part_004 lines 378-416): error when absent or revoked;
else mint a new record carrying forward user and name (the struct literal
sets no TenantID), revoke the old record, insert the new one, single save. -/
def TokenStore.Rotate (s : TokenStore) (old : String) (ttl : Int)
    (fresh : String) (now : Int) : TokenStore × Except TokenError Token :=
  match lookupKey s.tokens old with
  | none => (s, .error .notFound)
  | some tok =>
    if tok.revoked then (s, .error .revoked)
    else
      let exp : Option Int := if 0 < ttl then some (now + ttl) else none
      let newTok : Token :=
        { value := fresh, tenantID := "", user := tok.user, name := tok.name,
          createdAt := now, expiresAt := exp, revoked := false }
      let mem := insertKey (markRevoked s.tokens old) fresh newTok
      ({ s with tokens := mem, disk := mem }, .ok newTok)

/-- TokenStore.ListTokens (part_004 lines 419-427). -/
def TokenStore.ListTokens (s : TokenStore) : List Token :=
  s.tokens.map (fun p => p.2)

/-- Retention window of the sweeper: 30*24*time.Hour in nanoseconds. -/
def retentionWindow : Int := 30 * 24 * 60 * 60 * 1000000000

/-- Expiry step of the sweeper loop body (part_004 line 551): an unrevoked
record past its expiry is marked revoked, anything else is untouched. -/
def sweepRecord (t : Token) (now : Int) : Token :=
  match t.expiresAt with
  | some e => if e < now then { t with revoked := true } else t
  | none => t

/-- One loop-body iteration of TokenStore.sweeper (part_004 lines 547-563)
on a single map entry: already-revoked entries are skipped by the early
continue; an unrevoked entry past its expiry is marked revoked (sweepRecord);
the retention delete then fires only when the (possibly just updated) record
is revoked and the creation time lies more than the retention window back. -/
def sweepEntry (now : Int) (p : String × Token) : Option (String × Token) :=
  if p.2.revoked then some p
  else if (sweepRecord p.2 now).revoked ∧ p.2.createdAt + retentionWindow < now then
    none
  else some (p.1, sweepRecord p.2 now)

/-- One tick of TokenStore.sweeper (part_004 lines 538-572): scan every
entry, and persist once at the end when anything changed. -/
def TokenStore.sweepCycle (s : TokenStore) (now : Int) : TokenStore :=
  let mem := s.tokens.filterMap (sweepEntry now)
  let changed := s.tokens.any (fun p => decide (sweepEntry now p ≠ some p))
  if changed then { s with tokens := mem, disk := mem }
  else { s with tokens := mem }

/-- UserStore.Authenticate (part_004 lines 84-95): a missing or inactive
user yields the error string of line 89; a digest mismatch yields the
distinct error string of line 92. The sha256-hex digest is abstracted as
the hashPassword argument. -/
def Authenticate (hashPassword : String → String) (users : List (String × User))
    (username password : String) : Except String User :=
  match lookupKey users username with
  | none => .error ("invalid user or inactive")
  | some user =>
    if user.active = false then .error ("invalid user or inactive")
    else if user.passwordHash ≠ hashPassword password then .error ("invalid password")
    else .ok user

/-- UserStore.GetUser (part_004 lines 98-106). -/
def GetUser (users : List (String × User)) (username : String) : Except String User :=
  match lookupKey users username with
  | some u => .ok u
  | none => .error ("user not found")

/-- resolveActor (cmd/authz.go lines 13-27): a non-empty --token flag is
validated and wins; otherwise a non-empty --actor flag is returned verbatim;
otherwise the empty string is returned with no error. -/
def resolveActor (ts : TokenStore) (tokenFlag actorFlag : String) (now : Int) :
    TokenStore × Except String String :=
  if tokenFlag ≠ "" then
    match ts.Validate tokenFlag now with
    | (ts2, .ok tok) => (ts2, .ok tok.user)
    | (ts2, .error _) => (ts2, .error ("invalid token"))
  else if actorFlag ≠ "" then (ts, .ok actorFlag)
  else (ts, .ok (""))

/-- requireMinRole (cmd/authz.go lines 64-87): resolve the actor, reject an
empty actor, look the user up, and allow iff the user's level is not below
the required level. -/
def requireMinRole (ts : TokenStore) (users : List (String × User))
    (tokenFlag actorFlag : String) (now : Int) (minRole : Role) :
    TokenStore × Except String Unit :=
  match resolveActor ts tokenFlag actorFlag now with
  | (ts2, .error e) => (ts2, .error e)
  | (ts2, .ok actor) =>
    if actor = "" then (ts2, .error ("no actor provided; use --actor or --token"))
    else
      match GetUser users actor with
      | .error _ => (ts2, .error ("actor lookup failed"))
      | .ok u =>
        if roleLevel u.role < roleLevel minRole then
          (ts2, .error ("forbidden: insufficient role"))
        else (ts2, .ok ())

/-- HTTP outcome of the dashboard middleware: handler invoked with the
resolved actor, 401 unauthorized with the response text, or 403 forbidden. -/
inductive HttpOutcome where
  | allowed (actor : String)
  | unauthorized (msg : String)
  | forbidden
deriving DecidableEq

/-- Tail of authMiddleware (pkg/dashboard/client.go lines 80-107) once the
actor string is fixed: empty actor is 401, unknown user is 401, an
insufficient level is 403, else the handler runs. -/
def roleCheck (users : List (String × User)) (actor : String) (minRole : Role) :
    HttpOutcome :=
  if actor = "" then .unauthorized ("missing actor or token")
  else
    match lookupKey users actor with
    | none => .unauthorized ("actor not found")
    | some u =>
      if roleLevel u.role < roleLevel minRole then .forbidden
      else .allowed actor

/-- authMiddleware (pkg/dashboard/client.go lines 54-108): a Bearer token in
the Authorization header is validated (failure is 401); on success the
token's user becomes the actor, with the X-Actor header as a fallback when
that user is empty; without a usable Bearer token the X-Actor header alone
is used; then the role check of roleCheck runs. -/
def authMiddleware (ts : TokenStore) (users : List (String × User))
    (minRole : Role) (authHeader xActor : String) (now : Int) :
    TokenStore × HttpOutcome :=
  if authHeader ≠ "" ∧ "Bearer ".isPrefixOf authHeader = true ∧
      (authHeader.drop 7).trim ≠ "" then
    match ts.Validate ((authHeader.drop 7).trim) now with
    | (ts2, .error _) => (ts2, .unauthorized ("invalid token"))
    | (ts2, .ok tok) =>
      (ts2, roleCheck users (if tok.user = "" then xActor else tok.user) minRole)
  else (ts, roleCheck users xActor minRole)

/-- Effective lookup performed by TokenStore.Validate: the in-memory record
when present, else the record visible after the reload from disk. -/
def effLookup (s : TokenStore) (t : String) : Option Token :=
  match lookupKey s.tokens t with
  | some tok => some tok
  | none => lookupKey s.load.tokens t

/-- Validity of a token record exactly as the specification words it:
revoked is false, and expiresAt is absent or now is strictly before it. -/
def specValid (tok : Token) (now : Int) : Bool :=
  !tok.revoked && tok.expiresAt.all (fun e => decide (now < e))

/-! Association-list lemmas about the map model. -/

theorem lookupKey_insertKey_self {β : Type} (l : List (String × β)) (k : String) (v : β) :
    lookupKey (insertKey l k v) k = some v := by
  simp [insertKey, lookupKey]

theorem lookupKey_eraseKey_ne {β : Type} (l : List (String × β)) (k k2 : String)
    (h : k2 ≠ k) : lookupKey (eraseKey l k) k2 = lookupKey l k2 := by
  have hkk : ¬ (k = k2) := fun he => h he.symm
  induction l with
  | nil => rfl
  | cons p rest ih =>
    by_cases hp : p.1 = k
    · simp [eraseKey, lookupKey, hp, hkk, ih]
    · by_cases hk2 : p.1 = k2 <;> simp [eraseKey, lookupKey, hp, hk2, h, ih]

theorem lookupKey_insertKey_ne {β : Type} (l : List (String × β)) (k k2 : String)
    (v : β) (h : k2 ≠ k) : lookupKey (insertKey l k v) k2 = lookupKey l k2 := by
  have hk : ¬ (k = k2) := fun he => h he.symm
  simp [insertKey, lookupKey, hk, lookupKey_eraseKey_ne l k k2 h]

theorem lookupKey_markRevoked_self (l : List (String × Token)) (k : String) :
    lookupKey (markRevoked l k) k =
      (lookupKey l k).map (fun t => { t with revoked := true }) := by
  induction l with
  | nil => rfl
  | cons p rest ih =>
    by_cases hp : p.1 = k <;> simp [markRevoked, lookupKey, hp, ih]

theorem lookupKey_markRevoked_ne (l : List (String × Token)) (k k2 : String)
    (h : k2 ≠ k) : lookupKey (markRevoked l k) k2 = lookupKey l k2 := by
  have hkk : ¬ (k = k2) := fun he => h he.symm
  induction l with
  | nil => rfl
  | cons p rest ih =>
    by_cases hp : p.1 = k
    · simp [markRevoked, lookupKey, hp, hkk, ih]
    · by_cases hk2 : p.1 = k2 <;> simp [markRevoked, lookupKey, hp, hk2, h, ih]

theorem markRevoked_idem (l : List (String × Token)) (k : String) :
    markRevoked (markRevoked l k) k = markRevoked l k := by
  induction l with
  | nil => rfl
  | cons p rest ih =>
    by_cases hp : p.1 = k <;> simp [markRevoked, hp, ih]

/-! Lemmas about looking up after a key-preserving filterMap, used for the
sweeper. -/

theorem lookupKey_filterMap_found {β : Type} (f : (String × β) → Option (String × β))
    (hf : ∀ p q, f p = some q → q.1 = p.1)
    (l : List (String × β)) (k : String) (t t2 : β)
    (hl : lookupKey l k = some t) (hft : f (k, t) = some (k, t2)) :
    lookupKey (l.filterMap f) k = some t2 := by
  induction l with
  | nil => simp [lookupKey] at hl
  | cons p rest ih =>
    rw [lookupKey] at hl
    by_cases hp : p.1 = k
    · rw [if_pos hp] at hl
      have hpt : p = (k, t) := by
        cases p; cases hl; cases hp; rfl
      rw [List.filterMap_cons, hpt, hft, lookupKey, if_pos rfl]
    · rw [if_neg hp] at hl
      rw [List.filterMap_cons]
      cases hq : f p with
      | none => exact ih hl
      | some q =>
        have hq1 : q.1 = p.1 := hf p q hq
        rw [lookupKey, if_neg (by rw [hq1]; exact hp)]
        exact ih hl

theorem lookupKey_filterMap_absent {β : Type} (f : (String × β) → Option (String × β))
    (hf : ∀ p q, f p = some q → q.1 = p.1)
    (l : List (String × β)) (k : String)
    (hk : ∀ p ∈ l, p.1 ≠ k) : lookupKey (l.filterMap f) k = none := by
  induction l with
  | nil => rfl
  | cons p rest ih =>
    rw [List.filterMap_cons]
    have hrest : ∀ p ∈ rest, p.1 ≠ k := fun q hq => hk q (List.mem_cons_of_mem p hq)
    cases hq : f p with
    | none => exact ih hrest
    | some q =>
      have hq1 : q.1 = p.1 := hf p q hq
      rw [lookupKey, if_neg (by rw [hq1]; exact hk p (List.mem_cons_self p rest))]
      exact ih hrest

theorem lookupKey_filterMap_dropped {β : Type} (f : (String × β) → Option (String × β))
    (hf : ∀ p q, f p = some q → q.1 = p.1)
    (l : List (String × β)) (k : String) (t : β)
    (hnd : (l.map Prod.fst).Nodup)
    (hl : lookupKey l k = some t) (hft : f (k, t) = none) :
    lookupKey (l.filterMap f) k = none := by
  induction l with
  | nil => simp [lookupKey] at hl
  | cons p rest ih =>
    rw [List.map_cons, List.nodup_cons] at hnd
    rw [lookupKey] at hl
    by_cases hp : p.1 = k
    · rw [if_pos hp] at hl
      have hpt : p = (k, t) := by
        cases p; cases hl; cases hp; rfl
      rw [List.filterMap_cons, hpt, hft]
      refine lookupKey_filterMap_absent f hf rest k ?_
      intro q hq hqk
      apply hnd.1
      have hmem : q.1 ∈ rest.map Prod.fst := List.mem_map_of_mem Prod.fst hq
      rw [hqk] at hmem
      rw [hpt]
      exact hmem
    · rw [if_neg hp] at hl
      rw [List.filterMap_cons]
      cases hq : f p with
      | none => exact ih hnd.2 hl
      | some q =>
        have hq1 : q.1 = p.1 := hf p q hq
        rw [lookupKey, if_neg (by rw [hq1]; exact hp)]
        exact ih hnd.2 hl

/-- The sweeper loop body never changes an entry's key. -/
theorem sweepEntry_key (now : Int) (p q : String × Token)
    (h : sweepEntry now p = some q) : q.1 = p.1 := by
  unfold sweepEntry at h
  split at h
  · cases h; rfl
  · split at h
    · cases h
    · cases h; rfl

/-! C9 and C10: direct consequences of GenerateToken and Rotate. -/

/-- C9: a token generated with ttl = 0 carries no expiresAt, and Validate on
its value succeeds in the post-generation store at every later instant, so
validation never fails due to expiry regardless of elapsed time. -/
theorem generateToken_ttl_zero_never_expires (s : TokenStore)
    (user name fresh : String) (now : Int) :
    (s.GenerateToken user name 0 fresh now).2.expiresAt = none ∧
    ∀ now2 : Int,
      ((s.GenerateToken user name 0 fresh now).1.Validate fresh now2).2 =
        .ok (s.GenerateToken user name 0 fresh now).2 := by
  constructor
  · simp [TokenStore.GenerateToken]
  · intro now2
    simp [TokenStore.GenerateToken, TokenStore.Validate, insertKey, lookupKey, checkToken]

/-- C10: when Rotate fails because the old token is absent or already
revoked, the returned store is exactly the input store: no new token, no
revocation flag change, and no disk write. -/
theorem rotate_error_leaves_store_unchanged (s : TokenStore) (old fresh : String)
    (ttl now : Int) :
    (lookupKey s.tokens old = none →
      s.Rotate old ttl fresh now = (s, .error .notFound)) ∧
    (∀ tok, lookupKey s.tokens old = some tok → tok.revoked = true →
      s.Rotate old ttl fresh now = (s, .error .revoked)) := by
  constructor
  · intro h; simp [TokenStore.Rotate, h]
  · intro tok h hrev; simp [TokenStore.Rotate, h, hrev]

theorem rotate_error_leaves_store_unchanged_witness :
    TokenStore.Rotate ⟨[], [], ""⟩ ("x") 5 ("y") 0 = (⟨[], [], ""⟩, .error .notFound) :=
  (rotate_error_leaves_store_unchanged ⟨[], [], ""⟩ ("x") ("y") 5 0).1 rfl

/-! Concrete records used in counterexamples and witnesses. -/

/-- An already-revoked token created long before the retention window. -/
def staleRevokedToken : Token :=
  { value := "t1", tenantID := "", user := "alice", name := "n",
    createdAt := 0, expiresAt := none, revoked := true }

/-- An expired, unrevoked token created more than the retention window ago. -/
def expiredOldToken : Token :=
  { value := "t2", tenantID := "", user := "bob", name := "n",
    createdAt := 0, expiresAt := some 1, revoked := false }

/-- An unrevoked token whose expiry instant will equal the validation time. -/
def boundaryToken : Token :=
  { value := "t3", tenantID := "", user := "carol", name := "n",
    createdAt := 0, expiresAt := some 5, revoked := false }

/-- An active user whose digest under the sample hash is that of pw. -/
def activeAlice : User :=
  { username := "alice", tenantID := "", passwordHash := "Hpw", role := .viewer,
    createdAt := 0, active := true }

/-- Already-revoked entries are returned unchanged by the sweeper loop body:
the early continue fires before the retention delete can be reached. -/
theorem sweepEntry_revoked (now : Int) (p : String × Token)
    (h : p.2.revoked = true) : sweepEntry now p = some p := by
  simp [sweepEntry, h]

/-- The in-memory map after a sweep cycle is the filterMap of the loop body,
whether or not the cycle ended in a save. -/
theorem sweepCycle_tokens (s : TokenStore) (now : Int) :
    (s.sweepCycle now).tokens = s.tokens.filterMap (sweepEntry now) := by
  unfold TokenStore.sweepCycle
  simp only []
  split <;> rfl

/-- C5: evaluation at the failing input. A token that is already revoked and
was created more than the 30-day retention window before sweep time is still
returned by ListTokens after one sweep cycle: the early continue on revoked
entries skips the retention delete, contradicting the retention claim and
the code comment on part_004 line 558. -/
theorem sweeper_keeps_old_revoked_token :
    staleRevokedToken.revoked = true ∧
    staleRevokedToken.createdAt + retentionWindow < retentionWindow + 1 ∧
    (TokenStore.sweepCycle
        ⟨[(("t1"), staleRevokedToken)], [(("t1"), staleRevokedToken)], ""⟩
        (retentionWindow + 1)).ListTokens = [staleRevokedToken] := by
  refine ⟨rfl, by decide, rfl⟩

/-- C7: counterexample to the claim as stated. A token that is unrevoked and
expired at sweep time, but created more than the retention window before it,
is deleted by the same sweep pass that revokes it, so afterwards it has no
revoked field at all: it is gone from the store. -/
theorem sweeper_deletes_expired_old_token :
    expiredOldToken.revoked = false ∧
    expiredOldToken.expiresAt = some 1 ∧
    (1 : Int) < retentionWindow + 2 ∧
    (TokenStore.sweepCycle
        ⟨[(("t2"), expiredOldToken)], [(("t2"), expiredOldToken)], ""⟩
        (retentionWindow + 2)).ListTokens = [] := by
  refine ⟨rfl, rfl, by decide, rfl⟩

/-- C7 (amended): an unrevoked token past its expiry at sweep time is, after
one sweep cycle, present with revoked = true when its creation time is
within the retention window, and deleted from the map otherwise. -/
theorem sweep_revokes_or_prunes_expired (s : TokenStore) (k : String) (t : Token)
    (e now : Int) (hnd : (s.tokens.map Prod.fst).Nodup)
    (hk : lookupKey s.tokens k = some t) (hrev : t.revoked = false)
    (hexp : t.expiresAt = some e) (he : e < now) :
    (t.createdAt + retentionWindow < now →
      lookupKey (s.sweepCycle now).tokens k = none) ∧
    (¬ t.createdAt + retentionWindow < now →
      lookupKey (s.sweepCycle now).tokens k = some { t with revoked := true }) := by
  have hrec : sweepRecord t now = { t with revoked := true } := by
    simp [sweepRecord, hexp, he]
  constructor
  · intro hold
    rw [sweepCycle_tokens]
    refine lookupKey_filterMap_dropped (sweepEntry now) (sweepEntry_key now) s.tokens k t hnd hk ?_
    simp [sweepEntry, hrev, hrec, hold]
  · intro hyoung
    rw [sweepCycle_tokens]
    refine lookupKey_filterMap_found (sweepEntry now) (sweepEntry_key now) s.tokens k t
      ({ t with revoked := true }) hk ?_
    simp [sweepEntry, hrev, hrec, hyoung]

theorem sweep_revokes_or_prunes_expired_witness :
    lookupKey (TokenStore.sweepCycle
        ⟨[(("t3"), boundaryToken)], [(("t3"), boundaryToken)], ""⟩ 6).tokens ("t3") =
      some { boundaryToken with revoked := true } :=
  (sweep_revokes_or_prunes_expired
      ⟨[(("t3"), boundaryToken)], [(("t3"), boundaryToken)], ""⟩
      ("t3") boundaryToken 5 6 (by decide) rfl rfl rfl (by decide)).2 (by decide)

/-- C1: counterexample to the claim as stated. At the instant now equal to
expiresAt, Validate succeeds (Go After is strict), yet the claim's validity
condition now < expiresAt is false. -/
theorem validate_succeeds_at_expiry_instant :
    (TokenStore.Validate ⟨[(("t3"), boundaryToken)], [], ""⟩ ("t3") 5).2 =
      .ok boundaryToken ∧
    specValid boundaryToken 5 = false :=
  ⟨rfl, rfl⟩

/-- C3: counterexample to the claim as stated. With neither a token nor a
claimed username supplied, resolveActor does not fail: it returns the empty
username with a nil error. -/
theorem resolveActor_neither_is_ok_empty :
    (resolveActor ⟨[], [], ""⟩ ("") ("") 0).2 = .ok ("") :=
  rfl

/-- C6: counterexample to the claim as stated. A missing user and a wrong
password produce different error values, so the caller can tell a digest
mismatch apart from a missing or inactive user. -/
theorem authenticate_error_reveals_password_case :
    Authenticate (fun s => ("H") ++ s) [(("alice"), activeAlice)] ("bob") ("pw") =
      .error ("invalid user or inactive") ∧
    Authenticate (fun s => ("H") ++ s) [(("alice"), activeAlice)] ("alice") ("bad") =
      .error ("invalid password") ∧
    ("invalid user or inactive" : String) ≠ ("invalid password") := by
  refine ⟨rfl, rfl, by decide⟩

/-- C6 (amended): Authenticate fails with the single error value of part_004
line 89 both when the user is missing and when the user is inactive, and
with the distinct error value of line 92 when the password digest
mismatches; missing and inactive remain mutually indistinguishable. -/
theorem authenticate_error_cases (hash : String → String)
    (users : List (String × User)) (username password : String) :
    (lookupKey users username = none →
      Authenticate hash users username password = .error ("invalid user or inactive")) ∧
    (∀ u, lookupKey users username = some u → u.active = false →
      Authenticate hash users username password = .error ("invalid user or inactive")) ∧
    (∀ u, lookupKey users username = some u → u.active = true →
      u.passwordHash ≠ hash password →
      Authenticate hash users username password = .error ("invalid password")) := by
  refine ⟨fun h => ?_, fun u h ha => ?_, fun u h ha hne => ?_⟩
  · simp [Authenticate, h]
  · simp [Authenticate, h, ha]
  · simp [Authenticate, h, ha, hne]

theorem authenticate_error_cases_witness :
    Authenticate (fun s => ("H") ++ s) [(("alice"), activeAlice)] ("zed") ("pw") =
      .error ("invalid user or inactive") :=
  (authenticate_error_cases (fun s => ("H") ++ s) [(("alice"), activeAlice)]
    ("zed") ("pw")).1 rfl

/-- C1 (amended): over every store state, Validate succeeds and returns
exactly the record found by the lookup-with-reload-on-miss when that record
is unrevoked and now is not strictly past its expiry (now ≤ expiresAt when
present, since the Go After comparison is strict); otherwise it fails, with
notFound when no record exists even after the reload, revoked when the
record is revoked, and expired when the expiry lies strictly before now. -/
theorem validate_characterization (s : TokenStore) (t : String) (now : Int) :
    (∀ tok, (s.Validate t now).2 = .ok tok ↔
      (effLookup s t = some tok ∧ tok.revoked = false ∧
        ∀ e ∈ tok.expiresAt, now ≤ e)) ∧
    ((s.Validate t now).2 = .error .notFound ↔ effLookup s t = none) ∧
    ((s.Validate t now).2 = .error .revoked ↔
      ∃ tok, effLookup s t = some tok ∧ tok.revoked = true) ∧
    ((s.Validate t now).2 = .error .expired ↔
      ∃ tok, effLookup s t = some tok ∧ tok.revoked = false ∧
        ∃ e, tok.expiresAt = some e ∧ e < now) := by
  have key : (s.Validate t now).2 =
      (match effLookup s t with
        | none => Except.error TokenError.notFound
        | some tok => checkToken tok now) := by
    unfold TokenStore.Validate effLookup
    cases lookupKey s.tokens t with
    | some tok => rfl
    | none =>
      cases lookupKey s.load.tokens t with
      | some tok => rfl
      | none => rfl
  rw [key]
  cases h : effLookup s t with
  | none => simp
  | some tok =>
    have hred : (match some tok with
        | none => Except.error TokenError.notFound
        | some tok => checkToken tok now) = checkToken tok now := rfl
    rw [hred]
    have hchk : checkToken tok now =
        (if tok.revoked then Except.error TokenError.revoked
          else match tok.expiresAt with
            | some e =>
              if e < now then Except.error TokenError.expired else Except.ok tok
            | none => Except.ok tok) := rfl
    cases hrev : tok.revoked with
    | true =>
      have hcase : checkToken tok now = Except.error TokenError.revoked := by
        rw [hchk, hrev]
        simp
      rw [hcase]
      refine ⟨?_, by simp, ?_, ?_⟩
      · intro tok2
        constructor
        · intro hx; cases hx
        · rintro ⟨htok2, hr2, _⟩
          injection htok2 with hh
          subst hh
          simp [hrev] at hr2
      · constructor
        · intro _; exact ⟨tok, rfl, hrev⟩
        · intro _; rfl
      · constructor
        · intro hx; cases hx
        · rintro ⟨tok2, htok2, hr2, _⟩
          injection htok2 with hh
          subst hh
          simp [hrev] at hr2
    | false =>
      cases hexp : tok.expiresAt with
      | none =>
        have hcase : checkToken tok now = Except.ok tok := by
          rw [hchk, hrev, hexp]
          simp
        rw [hcase]
        refine ⟨?_, by simp, ?_, ?_⟩
        · intro tok2
          constructor
          · intro hx
            injection hx with hh
            subst hh
            exact ⟨rfl, hrev, by simp [hexp]⟩
          · rintro ⟨htok2, _, _⟩
            injection htok2 with hh
            subst hh
            rfl
        · constructor
          · intro hx; cases hx
          · rintro ⟨tok2, htok2, hr2⟩
            injection htok2 with hh
            subst hh
            simp [hrev] at hr2
        · constructor
          · intro hx; cases hx
          · rintro ⟨tok2, htok2, _, e2, hexp2, _⟩
            injection htok2 with hh
            subst hh
            rw [hexp] at hexp2
            cases hexp2
      | some e =>
        by_cases he : e < now
        · have hcase : checkToken tok now = Except.error TokenError.expired := by
            rw [hchk, hrev, hexp]
            simp [he]
          rw [hcase]
          refine ⟨?_, by simp, ?_, ?_⟩
          · intro tok2
            constructor
            · intro hx; cases hx
            · rintro ⟨htok2, _, hall⟩
              injection htok2 with hh
              subst hh
              have hle := hall e (by rw [hexp]; rfl)
              omega
          · constructor
            · intro hx; cases hx
            · rintro ⟨tok2, htok2, hr2⟩
              injection htok2 with hh
              subst hh
              simp [hrev] at hr2
          · constructor
            · intro _; exact ⟨tok, rfl, hrev, e, hexp, he⟩
            · intro _; rfl
        · have hcase : checkToken tok now = Except.ok tok := by
            rw [hchk, hrev, hexp]
            simp [he]
          rw [hcase]
          refine ⟨?_, by simp, ?_, ?_⟩
          · intro tok2
            constructor
            · intro hx
              injection hx with hh
              subst hh
              refine ⟨rfl, hrev, ?_⟩
              intro e2 he2
              rw [hexp] at he2
              cases he2
              omega
            · rintro ⟨htok2, _, _⟩
              injection htok2 with hh
              subst hh
              rfl
          · constructor
            · intro hx; cases hx
            · rintro ⟨tok2, htok2, hr2⟩
              injection htok2 with hh
              subst hh
              simp [hrev] at hr2
          · constructor
            · intro hx; cases hx
            · rintro ⟨tok2, htok2, _, e2, hexp2, hlt⟩
              injection htok2 with hh
              subst hh
              rw [hexp] at hexp2
              injection hexp2 with hee
              subst hee
              omega

/-- An active operator user for witnesses. -/
def operatorOpal : User :=
  { username := "opal", tenantID := "", passwordHash := "h", role := .operator,
    createdAt := 0, active := true }

/-- C3 (amended): a presented non-empty token wins: on validation success
resolveActor returns the token's user whatever the claimed username is, and
on validation failure it errors; with no token a non-empty claimed username
is returned verbatim; with neither, resolveActor returns the empty username
with no error, and each caller then fails: requireMinRole returns the
no-actor error and the dashboard middleware responds 401 unauthorized. -/
theorem resolveActor_spec (ts : TokenStore) (users : List (String × User))
    (tokenFlag actorFlag : String) (now : Int) (minRole : Role) :
    (tokenFlag ≠ "" → ∀ ts2 tok, ts.Validate tokenFlag now = (ts2, .ok tok) →
      (resolveActor ts tokenFlag actorFlag now).2 = .ok tok.user) ∧
    (tokenFlag ≠ "" → ∀ ts2 err, ts.Validate tokenFlag now = (ts2, .error err) →
      (resolveActor ts tokenFlag actorFlag now).2 = .error ("invalid token")) ∧
    (tokenFlag = "" → actorFlag ≠ "" →
      (resolveActor ts tokenFlag actorFlag now).2 = .ok actorFlag) ∧
    (tokenFlag = "" → actorFlag = "" →
      (resolveActor ts tokenFlag actorFlag now).2 = .ok ("") ∧
      (requireMinRole ts users tokenFlag actorFlag now minRole).2 =
        .error ("no actor provided; use --actor or --token") ∧
      (authMiddleware ts users minRole ("") ("") now).2 =
        .unauthorized ("missing actor or token")) := by
  refine ⟨?_, ?_, ?_, ?_⟩
  · intro h ts2 tok hv
    unfold resolveActor
    rw [if_pos h, hv]
  · intro h ts2 err hv
    unfold resolveActor
    rw [if_pos h, hv]
  · intro h1 h2
    subst h1
    unfold resolveActor
    rw [if_neg (by simp), if_pos h2]
  · intro h1 h2
    subst h1
    subst h2
    exact ⟨rfl, rfl, rfl⟩

theorem resolveActor_spec_witness :
    (resolveActor ⟨[], [], ""⟩ ("") ("bob") 0).2 = .ok ("bob") :=
  (resolveActor_spec ⟨[], [], ""⟩ [] ("") ("bob") 0 Role.viewer).2.2.1 rfl (by decide)

/-- C2: for a user present in the store and any minimum role, the CLI
requireMinRole allows exactly when the user's level reaches the minimum
level, and the dashboard middleware's role check allows identically; the
levels are the fixed viewer 10 < operator 20 < admin 30, so an operator
passes a viewer minimum and fails an admin minimum. -/
theorem requireMinRole_iff_level (ts : TokenStore) (users : List (String × User))
    (actor : String) (u : User) (minRole : Role) (now : Int)
    (hu : lookupKey users actor = some u) (hne : actor ≠ "") :
    ((requireMinRole ts users ("") actor now minRole).2 = .ok () ↔
      roleLevel minRole ≤ roleLevel u.role) ∧
    ((authMiddleware ts users minRole ("") actor now).2 = .allowed actor ↔
      roleLevel minRole ≤ roleLevel u.role) ∧
    roleLevel .viewer = 10 ∧ roleLevel .operator = 20 ∧ roleLevel .admin = 30 ∧
    roleLevel .viewer ≤ roleLevel .operator ∧
    ¬ roleLevel .admin ≤ roleLevel .operator := by
  have hres : resolveActor ts ("") actor now = (ts, .ok actor) := by
    unfold resolveActor
    rw [if_neg (by simp), if_pos hne]
  refine ⟨?_, ?_, rfl, rfl, rfl, by decide, by decide⟩
  · unfold requireMinRole GetUser
    rw [hres]
    by_cases hc : roleLevel u.role < roleLevel minRole
    · simp [hne, hu, hc, Nat.not_le.mpr hc]
    · simp [hne, hu, hc, Nat.not_lt.mp hc]
  · unfold authMiddleware
    rw [if_neg (by simp)]
    unfold roleCheck
    by_cases hc : roleLevel u.role < roleLevel minRole
    · simp [hne, hu, hc, Nat.not_le.mpr hc]
    · simp [hne, hu, hc, Nat.not_lt.mp hc]

theorem requireMinRole_iff_level_witness :
    (requireMinRole ⟨[], [], ""⟩ [(("opal"), operatorOpal)] ("") ("opal") 0
      Role.viewer).2 = .ok () :=
  ((requireMinRole_iff_level ⟨[], [], ""⟩ [(("opal"), operatorOpal)] ("opal")
    operatorOpal Role.viewer 0 rfl (by decide)).1).mpr (by decide)

/-- C4: rotating a stored unrevoked token with a fresh value succeeds for
every ttl, the new token carries the old token's user and name, afterwards
Validate on the old value fails revoked at every instant while Validate on
the new value succeeds, and the single save leaves the disk identical to the
in-memory map, holding the revoked old record and the new record together. -/
theorem rotate_spec (s : TokenStore) (old fresh : String) (ttl now : Int)
    (tok : Token) (hold : lookupKey s.tokens old = some tok)
    (hrev : tok.revoked = false) (hfresh : lookupKey s.tokens fresh = none) :
    ∃ s2 newTok, s.Rotate old ttl fresh now = (s2, .ok newTok) ∧
      newTok.user = tok.user ∧ newTok.name = tok.name ∧
      (∀ now2, (s2.Validate old now2).2 = .error .revoked) ∧
      (s2.Validate fresh now).2 = .ok newTok ∧
      s2.disk = s2.tokens ∧
      lookupKey s2.tokens old = some { tok with revoked := true } ∧
      lookupKey s2.tokens fresh = some newTok := by
  have hne : old ≠ fresh := by
    intro h
    rw [h, hfresh] at hold
    cases hold
  set newTok : Token :=
    { value := fresh, tenantID := "", user := tok.user, name := tok.name,
      createdAt := now, expiresAt := if 0 < ttl then some (now + ttl) else none,
      revoked := false } with hnew
  set mem := insertKey (markRevoked s.tokens old) fresh newTok with hmem
  have hrot : s.Rotate old ttl fresh now =
      ({ s with tokens := mem, disk := mem }, .ok newTok) := by
    unfold TokenStore.Rotate
    rw [hold]
    simp [hrev]
  have hlookupOld : lookupKey mem old = some { tok with revoked := true } := by
    rw [hmem, lookupKey_insertKey_ne _ _ _ _ hne, lookupKey_markRevoked_self, hold]
    rfl
  have hlookupFresh : lookupKey mem fresh = some newTok :=
    lookupKey_insertKey_self _ _ _
  refine ⟨_, _, hrot, rfl, rfl, ?_, ?_, rfl, hlookupOld, hlookupFresh⟩
  · intro now2
    simp [TokenStore.Validate, hlookupOld, checkToken]
  · by_cases httl : 0 < ttl
    · simp [TokenStore.Validate, hlookupFresh, checkToken, hnew, httl]
      omega
    · simp [TokenStore.Validate, hlookupFresh, checkToken, hnew, httl]

theorem rotate_spec_witness :
    ∃ s2 newTok,
      TokenStore.Rotate ⟨[(("t3"), boundaryToken)], [(("t3"), boundaryToken)], ""⟩
          ("t3") 0 ("f") 0 = (s2, .ok newTok) ∧
      newTok.user = boundaryToken.user ∧ newTok.name = boundaryToken.name ∧
      (∀ now2, (s2.Validate ("t3") now2).2 = .error .revoked) ∧
      (s2.Validate ("f") 0).2 = .ok newTok ∧
      s2.disk = s2.tokens ∧
      lookupKey s2.tokens ("t3") = some { boundaryToken with revoked := true } ∧
      lookupKey s2.tokens ("f") = some newTok :=
  rotate_spec _ ("t3") ("f") 0 0 boundaryToken rfl rfl rfl

/-- C8: after a successful Revoke of a stored token value, Validate on that
value fails revoked at every instant, and a second Revoke succeeds returning
the exact same store state: it neither errors nor changes anything. -/
theorem revoke_validate_and_idempotent (s : TokenStore) (v : String) (tok : Token)
    (h : lookupKey s.tokens v = some tok) :
    ∃ s2, s.Revoke v = (s2, .ok ()) ∧
      (∀ now, (s2.Validate v now).2 = .error .revoked) ∧
      s2.Revoke v = (s2, .ok ()) := by
  have hlook : lookupKey (markRevoked s.tokens v) v =
      some { tok with revoked := true } := by
    rw [lookupKey_markRevoked_self, h]
    rfl
  refine ⟨⟨markRevoked s.tokens v, markRevoked s.tokens v, s.tenant⟩, ?_, ?_, ?_⟩
  · unfold TokenStore.Revoke
    rw [h]
  · intro now
    simp [TokenStore.Validate, hlook, checkToken]
  · unfold TokenStore.Revoke
    rw [hlook]
    rw [markRevoked_idem]

theorem revoke_validate_and_idempotent_witness :
    ∃ s2, TokenStore.Revoke ⟨[(("t3"), boundaryToken)], [], ""⟩ ("t3") =
        (s2, .ok ()) ∧
      (∀ now, (s2.Validate ("t3") now).2 = .error .revoked) ∧
      s2.Revoke ("t3") = (s2, .ok ()) :=
  revoke_validate_and_idempotent _ ("t3") boundaryToken rfl

end MissionControl
